import Mathlib

/-!
Shallow embedding of the image-service core (tenant ledger, asset catalog,
access broker, ingestion pipeline) translated from the JavaScript source:
`src/models/Application.js`, the image schema and hooks in
`src/routes/images.js`, the image controller, and the auth middleware
(`optionalApplicationAuth`).  Mongoose documents become plain structures,
`Date` values keep only the fields the code compares (calendar month and
year) plus an abstract instant for timestamps, and Mongo queries become
`List.find?` / `List.filter` over an explicit collection.
-/

namespace ImageService

/-- A JavaScript `Date` as the ledger code observes it: `getMonth()` and
`getFullYear()` are the only accessors used by `resetMonthlyUsage`. -/
structure JsDate where
  year : Int
  month : Int
  deriving Repr, DecidableEq

/-- Plan limits subdocument of the Application schema. -/
structure Limits where
  maxFileSize : Int
  maxImagesPerMonth : Int
  maxStorageSize : Int
  deriving Repr, DecidableEq

/-- Usage subdocument of the Application schema. -/
structure Usage where
  totalImages : Int
  totalStorageUsed : Int
  currentMonthUploads : Int
  lastResetDate : JsDate
  deriving Repr, DecidableEq

/-- A stored credential secret: either still plaintext or a one-way bcrypt
hash of a plaintext with a salt.  The pre-save hook only ever stores the
hashed form. -/
inductive SecretValue
  | plaintext (s : String)
  | bcryptHashed (s : String) (salt : Nat)
  deriving Repr, DecidableEq

/-- The Application (tenant) document, restricted to the schema paths the
verified operations read or write.  `id` is the Mongo `_id`.  `apiSecret`
and `refreshTokens` are `Option` so that `delete appObject.field` in
`toJSON` is representable as `none`. -/
structure Application where
  id : String
  name : String
  domain : String
  apiKey : Option String
  apiSecret : Option SecretValue
  isActive : Bool
  plan : String
  limits : Limits
  usage : Usage
  refreshTokens : Option (List String)
  deriving Repr, DecidableEq

/-- `applicationSchema.methods.resetMonthlyUsage`: zero the monthly counter
and stamp `lastResetDate` when the current calendar month or year differs
from the stored one; otherwise leave the document unchanged. -/
def resetMonthlyUsage (now : JsDate) (app : Application) : Application :=
  let lastReset := app.usage.lastResetDate
  if now.month != lastReset.month || now.year != lastReset.year then
    { app with usage :=
        { app.usage with currentMonthUploads := 0, lastResetDate := now } }
  else
    app

/-- The `reasons` object returned by `canUpload`. -/
structure CanUploadReasons where
  monthlyLimit : Bool
  storageLimit : Bool
  fileSizeLimit : Bool
  deriving Repr, DecidableEq

/-- The `limits` object returned by `canUpload`. -/
structure CanUploadLimits where
  monthlyRemaining : Int
  storageRemaining : Int
  maxFileSize : Int
  deriving Repr, DecidableEq

/-- The full return value of `canUpload`. -/
structure CanUploadResult where
  allowed : Bool
  reasons : CanUploadReasons
  limits : CanUploadLimits
  deriving Repr, DecidableEq

/-- `applicationSchema.methods.canUpload`: runs the monthly reset, then
reports the three admission reasons and their conjunction.  Because
`resetMonthlyUsage` mutates `this`, the embedding returns the possibly
updated document alongside the result. -/
def canUpload (now : JsDate) (app : Application) (fileSize : Int) :
    Application × CanUploadResult :=
  let app := resetMonthlyUsage now app
  let withinMonthlyLimit : Bool :=
    decide (app.usage.currentMonthUploads < app.limits.maxImagesPerMonth)
  let withinStorageLimit : Bool :=
    decide (app.usage.totalStorageUsed + fileSize ≤ app.limits.maxStorageSize)
  let withinFileSizeLimit : Bool :=
    decide (fileSize ≤ app.limits.maxFileSize)
  (app,
    { allowed := withinMonthlyLimit && withinStorageLimit && withinFileSizeLimit
      reasons :=
        { monthlyLimit := withinMonthlyLimit
          storageLimit := withinStorageLimit
          fileSizeLimit := withinFileSizeLimit }
      limits :=
        { monthlyRemaining :=
            app.limits.maxImagesPerMonth - app.usage.currentMonthUploads
          storageRemaining :=
            app.limits.maxStorageSize - app.usage.totalStorageUsed
          maxFileSize := app.limits.maxFileSize } })

/-- `applicationSchema.methods.recordUpload`: unconditionally increment the
three usage counters by one image, `fileSize` bytes, and one monthly upload.
It performs no monthly-reset check and leaves `lastResetDate` alone.  (The
subsequent `this.save()` runs the pre-save hook, which is a no-op on an
existing document.) -/
def recordUpload (fileSize : Int) (app : Application) : Application :=
  { app with usage :=
      { app.usage with
          totalImages := app.usage.totalImages + 1
          totalStorageUsed := app.usage.totalStorageUsed + fileSize
          currentMonthUploads := app.usage.currentMonthUploads + 1 } }

/-- `recordUpload` folded over a sequence of accepted upload sizes, one call
per accepted upload. -/
def recordUploads (sizes : List Int) (app : Application) : Application :=
  sizes.foldl (fun a s => recordUpload s a) app

/-- `applicationSchema.methods.toJSON`: convert to a plain object and delete
the `apiSecret` and `refreshTokens` keys. -/
def Application.toJSON (app : Application) : Application :=
  { app with apiSecret := none, refreshTokens := none }

/-- Result of saving an Application document: the persisted document plus
the transient `_plainSecret` field, which is not a schema path and is never
persisted or serialized. -/
structure AppSaveResult where
  doc : Application
  plainSecret : Option String
  deriving Repr, DecidableEq

/-- `applicationSchema.pre` save hook: on a new document, generate an API
key and a random plaintext secret, store only the bcrypt hash of the secret
(with a fresh salt), and keep the plaintext in the transient `_plainSecret`.
On an existing document it does nothing.  `randKeyHex`/`randSecretHex`
stand for the `crypto.randomBytes(..).toString` outputs and `salt` for the
generated bcrypt salt. -/
def applicationPreSave (isNew : Bool) (randKeyHex randSecretHex : String)
    (salt : Nat) (app : Application) : AppSaveResult :=
  if isNew then
    { doc :=
        { app with
            apiKey := some (String.append "ak_" randKeyHex)
            apiSecret := some (SecretValue.bcryptHashed randSecretHex salt) }
      plainSecret := some randSecretHex }
  else
    { doc := app, plainSecret := none }

/-- The `metadata` subdocument of the image schema. -/
structure ImageMetadata where
  width : Option Int
  height : Option Int
  format : Option String
  hasAlpha : Option Bool
  deriving Repr, DecidableEq

/-- One entry of the `variants` mixed map. -/
structure VariantInfo where
  path : Option String
  s3Key : Option String
  size : Option Int
  width : Option Int
  height : Option Int
  format : Option String
  deriving Repr, DecidableEq

/-- One entry of the append-only `versions` history. -/
structure VersionEntry where
  filename : Option String
  path : Option String
  s3Key : Option String
  createdAt : Option Int
  deriving Repr, DecidableEq

/-- The Image (asset) document, restricted to the schema paths the verified
operations read or write.  `application` holds the owning tenant id.
Timestamps outside `lastResetDate` comparisons are abstract instants
(`Int`).  Note the schema defines no `owner` path. -/
structure Image where
  imageId : String
  originalName : String
  filename : String
  mimetype : String
  size : Int
  path : String
  url : Option String
  s3Key : Option String
  application : String
  entityId : Option String
  entityType : Option String
  productId : Option String
  category : String
  tags : List String
  alt : String
  title : String
  isPublic : Bool
  isDeleted : Bool
  deletedAt : Option Int
  versions : List VersionEntry
  variants : List (String × VariantInfo)
  metadata : ImageMetadata
  accessCount : Int
  lastAccessedAt : Option Int
  deriving Repr, DecidableEq

/-- JavaScript truthiness of an optional string field (`undefined` and the
empty string are falsy). -/
def strTruthy (s : Option String) : Bool :=
  match s with
  | some v => v != ""
  | none => false

/-- The disjunction tested by the image pre-save hook: product entity type,
a truthy `productId`, or one of the four auto-public category strings. -/
def imagePublicCond (img : Image) : Bool :=
  img.entityType == some "product" ||
  img.category == "product" ||
  strTruthy img.productId ||
  img.category == "electronics" ||
  img.category == "clothing" ||
  img.category == "accessories"

/-- `imageSchema.pre` save hook: when the public-visibility condition holds
it assigns `isPublic = true`; it never assigns `false`. -/
def imagePreSave (img : Image) : Image :=
  if imagePublicCond img then { img with isPublic := true } else img

/-- `document.save()` on an Image: mongoose runs the pre-save hook, then
persists the document. -/
def saveImage (img : Image) : Image :=
  imagePreSave img

/-- `imageSchema.methods.softDelete`: set the deleted flag and timestamp,
then save (which runs the pre-save hook). -/
def softDelete (now : Int) (img : Image) : Image :=
  saveImage { img with isDeleted := true, deletedAt := some now }

/-- `imageSchema.methods.recordAccess`: bump the access counter and
last-accessed timestamp, then save. -/
def recordAccess (now : Int) (img : Image) : Image :=
  saveImage { img with
    accessCount := img.accessCount + 1
    lastAccessedAt := some now }

/-- The body fields `updateImageMetadata` may patch; `none` models an
`undefined` field that is left untouched.  `tags` carries the normalized
list (the controller accepts an array or a comma-separated string). -/
structure MetadataPatch where
  category : Option String
  tags : Option (List String)
  alt : Option String
  title : Option String
  deriving Repr, DecidableEq

/-- The field mutations of `updateImageMetadata` on a found document,
followed by `image.save()`. -/
def applyMetadataPatch (p : MetadataPatch) (img : Image) : Image :=
  let img := match p.category with
    | some c => { img with category := c }
    | none => img
  let img := match p.tags with
    | some t => { img with tags := t }
    | none => img
  let img := match p.alt with
    | some a => { img with alt := a }
    | none => img
  let img := match p.title with
    | some t => { img with title := t }
    | none => img
  saveImage img

/-- The uploaded-file record multer hands to the controllers. -/
structure FileInfo where
  originalname : String
  filename : String
  mimetype : String
  size : Int
  path : String
  deriving Repr, DecidableEq

/-- The document mutations of `replaceImage` on a found document (local
storage branch): archive the current file into `versions`, then overwrite
the content descriptors and variants and save. -/
def replaceImageDoc (now : Int) (f : FileInfo)
    (variants : List (String × VariantInfo)) (meta : ImageMetadata)
    (img : Image) : Image :=
  let snapshot : VersionEntry :=
    { filename := some img.filename, path := some img.path
      s3Key := img.s3Key, createdAt := some now }
  let archived := { img with versions := img.versions ++ [snapshot] }
  saveImage
    { archived with
        originalName := f.originalname
        filename := f.filename
        mimetype := f.mimetype
        size := f.size
        metadata := meta
        variants := variants
        path := f.path }

/-- `Image.findOne(\x7b imageId, isDeleted: false \x7d)` over an explicit
collection. -/
def findImage (db : List Image) (imageId : String) : Option Image :=
  db.find? (fun i => i.imageId == imageId && !i.isDeleted)

/-- `Image.findOne(\x7b imageId, application, isDeleted: false \x7d)`, the
owner-scoped lookup used by update, replace and delete. -/
def findOwnedImage (db : List Image) (appId imageId : String) : Option Image :=
  db.find? (fun i => i.imageId == imageId && i.application == appId && !i.isDeleted)

/-- The base catalog-listing query of `listImages`:
`\x7b application, isDeleted: false \x7d` (further optional filters only
conjoin extra conditions). -/
def listImagesQuery (db : List Image) (appId : String) : List Image :=
  db.filter (fun i => i.application == appId && !i.isDeleted)

/-- Run `softDelete` on the image with the given id inside the collection
(the effect of a committed `deleteImage` on the store). -/
def softDeleteInDb (now : Int) (imageId : String) (db : List Image) :
    List Image :=
  db.map (fun i => if i.imageId == imageId then softDelete now i else i)

/-- Payload of a per-image signed access token
(`jwt.sign(\x7b imageId, applicationId \x7d, ...)`). -/
structure AccessTokenPayload where
  imageId : String
  applicationId : String
  deriving Repr, DecidableEq

/-- A per-image signed token as presented by a client: its payload, the
secret it was signed with, and its expiry instant. -/
structure SignedToken where
  payload : AccessTokenPayload
  signedWith : String
  expiresAt : Int
  deriving Repr, DecidableEq

/-- `jwt.verify(token, secret)` for per-image tokens: succeeds exactly when
the signature checks out against `secret` and the token is unexpired,
returning the decoded payload; otherwise it throws (here: `none`). -/
def jwtVerify (secret : String) (now : Int) (t : SignedToken) :
    Option AccessTokenPayload :=
  if t.signedWith == secret && decide (now < t.expiresAt) then
    some t.payload
  else
    none

/-- Payload of a tenant bearer token (`\x7b id, type: "application" \x7d`). -/
structure BearerPayload where
  type : String
  id : String
  deriving Repr, DecidableEq

/-- A bearer token from the `Authorization` header. -/
structure BearerToken where
  payload : BearerPayload
  signedWith : String
  expiresAt : Int
  deriving Repr, DecidableEq

/-- `jwt.verify` for bearer tokens. -/
def bearerVerify (secret : String) (now : Int) (t : BearerToken) :
    Option BearerPayload :=
  if t.signedWith == secret && decide (now < t.expiresAt) then
    some t.payload
  else
    none

/-- `Application.findById` over an explicit tenant collection. -/
def findAppById (apps : List Application) (appId : String) :
    Option Application :=
  apps.find? (fun a => a.id == appId)

/-- The request fields the read controllers consult after the auth
middleware ran.  `application` is `req.application.id` when the middleware
set it; `userId` is `req.userId`, which `optionalApplicationAuth` never
sets (it belongs to the separate user-auth middleware). -/
structure ReqAuthCtx where
  application : Option String
  userId : Option String
  deriving Repr, DecidableEq

/-- `optionalApplicationAuth`: with no header, an unverifiable token, a
non-application token, or an unknown/inactive tenant, continue with no
identity; otherwise attach the tenant identity.  It never sets
`req.userId`. -/
def optionalApplicationAuth (secret : String) (now : Int)
    (apps : List Application) (header : Option BearerToken) : ReqAuthCtx :=
  match header with
  | none => { application := none, userId := none }
  | some t =>
    match bearerVerify secret now t with
    | none => { application := none, userId := none }
    | some p =>
      if p.type == "application" then
        match findAppById apps p.id with
        | some a =>
          if a.isActive then { application := some a.id, userId := none }
          else { application := none, userId := none }
        | none => { application := none, userId := none }
      else { application := none, userId := none }

/-- Outcome of the `getImage` access decision, one constructor per exit of
the controller's access-control section. -/
inductive GetImageOutcome
  | notFound
  | tokenInvalid
  | tokenForbidden
  | authRequired
  | ownerCheckError
  | granted (img : Image)
  deriving Repr, DecidableEq

/-- HTTP status each `getImage` access outcome maps to. -/
def getImageStatus : GetImageOutcome → Nat
  | .notFound => 404
  | .tokenInvalid => 401
  | .tokenForbidden => 403
  | .authRequired => 401
  | .ownerCheckError => 500
  | .granted _ => 200

/-- The access-control section of the `getImage` controller: look up the
non-deleted asset; public assets are served after `recordAccess`; private
assets demand a token whose payload names this image, else fall back to
`req.userId` — which this route's middleware never sets — and compare it
with `image.owner`.  The image schema defines no `owner` path, so that
comparison dereferences `undefined` and the outer catch turns it into a
500. -/
def getImageAccess (secret : String) (now : Int) (db : List Image)
    (ctx : ReqAuthCtx) (imageId : String) (token : Option SignedToken) :
    GetImageOutcome :=
  match findImage db imageId with
  | none => .notFound
  | some image =>
    if image.isPublic then
      .granted (recordAccess now image)
    else
      match token with
      | some t =>
        match jwtVerify secret now t with
        | none => .tokenInvalid
        | some payload =>
          if payload.imageId != imageId then .tokenForbidden
          else .granted (recordAccess now image)
      | none =>
        match ctx.userId with
        | none => .authRequired
        | some _ => .ownerCheckError

/-- The `getImage` route as wired in `routes/images.js`:
`optionalApplicationAuth` then the controller. -/
def getImageRoute (secret : String) (now : Int) (apps : List Application)
    (db : List Image) (header : Option BearerToken) (imageId : String)
    (token : Option SignedToken) : GetImageOutcome :=
  getImageAccess secret now db
    (optionalApplicationAuth secret now apps header) imageId token

/-- Outcome of the `getImageInfo` access decision.  `minted` records
whether a fresh access token was generated for the response. -/
inductive GetInfoOutcome
  | notFound
  | tokenInvalid
  | accessDenied
  | granted (img : Image) (minted : Bool)
  deriving Repr, DecidableEq

/-- HTTP status each `getImageInfo` access outcome maps to. -/
def getInfoStatus : GetInfoOutcome → Nat
  | .notFound => 404
  | .tokenInvalid => 401
  | .accessDenied => 403
  | .granted _ _ => 200

/-- The access-control section of the `getImageInfo` controller: public
assets are always granted; for private assets a verifiable token grants
access only when its payload names this image (a mismatch leaves
`hasAccess` false), an unverifiable token is a 401, and with no token a
bearer-authenticated tenant matching `image.application` is granted and a
fresh token is minted; every remaining case is the single 403 response. -/
def getImageInfoAccess (secret : String) (now : Int) (db : List Image)
    (ctx : ReqAuthCtx) (imageId : String) (token : Option SignedToken) :
    GetInfoOutcome :=
  match findImage db imageId with
  | none => .notFound
  | some image =>
    if image.isPublic then
      .granted (recordAccess now image) false
    else
      match token with
      | some t =>
        match jwtVerify secret now t with
        | none => .tokenInvalid
        | some payload =>
          if payload.imageId == imageId then
            .granted (recordAccess now image) false
          else
            .accessDenied
      | none =>
        match ctx.application with
        | some appId =>
          if image.application == appId then
            .granted (recordAccess now image) true
          else
            .accessDenied
        | none => .accessDenied

/-- The `getImageInfo` route as wired in `routes/images.js`. -/
def getImageInfoRoute (secret : String) (now : Int)
    (apps : List Application) (db : List Image)
    (header : Option BearerToken) (imageId : String)
    (token : Option SignedToken) : GetInfoOutcome :=
  getImageInfoAccess secret now db
    (optionalApplicationAuth secret now apps header) imageId token

/-- The request-body fields `uploadImage` destructures; `none` models an
absent field. -/
structure UploadBody where
  entityId : Option String
  entityType : Option String
  category : Option String
  tags : Option String
  alt : Option String
  title : Option String
  productId : Option String
  deriving Repr, DecidableEq

/-- `tags.split(',').map(trim).filter(Boolean)`. -/
def splitTags (s : String) : List String :=
  ((s.splitOn ",").map String.trim).filter (fun t => t != "")

/-- JavaScript `a || b` for an optional string against a default. -/
def orDefault (v : Option String) (d : String) : String :=
  match v with
  | some s => if s == "" then d else s
  | none => d

/-- `if (field) imageData.field = field`: keep an optional string only when
truthy. -/
def keepTruthy (v : Option String) : Option String :=
  match v with
  | some s => if s == "" then none else some s
  | none => none

/-- Outcome of the single-asset `uploadImage` controller, one constructor
per exit.  `created` carries the persisted asset, the updated tenant, and
the payload of the freshly minted access token; it is serialized as the
201 `success: true` response. -/
inductive UploadOutcome
  | noFile
  | appNotFound
  | limitsExceeded (result : CanUploadResult)
  | created (img : Image) (app : Application) (token : AccessTokenPayload)
  deriving Repr, DecidableEq

/-- HTTP status of each `uploadImage` outcome. -/
def uploadStatus : UploadOutcome → Nat
  | .noFile => 400
  | .appNotFound => 404
  | .limitsExceeded _ => 413
  | .created _ _ _ => 201

/-- The `success` flag of each `uploadImage` response. -/
def uploadSuccess : UploadOutcome → Bool
  | .created _ _ _ => true
  | _ => false

/-- The single-asset `uploadImage` controller (local-storage branch):
reject when no file or no tenant record; run admission via `canUpload`
(whose monthly reset may mutate the tenant); attempt variant generation,
absorbing any failure into an empty variant map with only a warning;
build the catalog record, save it (running the visibility pre-save hook),
record usage via `recordUpload`, and mint a one-hour access token bound to
(imageId, applicationId).  `variantResult` is the outcome of
`generateImageVariants`, `newImageId` the generated UUID, `fileMeta` the
sniffed content metadata. -/
def uploadImage (now : JsDate) (newImageId : String) (file : Option FileInfo)
    (fileMeta : ImageMetadata) (app : Option Application) (body : UploadBody)
    (variantResult : Except String (List (String × VariantInfo))) :
    UploadOutcome :=
  match file with
  | none => .noFile
  | some f =>
    match app with
    | none => .appNotFound
    | some application =>
      let checked := canUpload now application f.size
      let application := checked.1
      if !checked.2.allowed then
        .limitsExceeded checked.2
      else
        let variants := match variantResult with
          | .ok vs => vs
          | .error _ => []
        let imageData : Image :=
          { imageId := newImageId
            originalName := f.originalname
            filename := f.filename
            mimetype := f.mimetype
            size := f.size
            path := f.path
            url := none
            s3Key := none
            application := application.id
            entityId := keepTruthy body.entityId
            entityType := keepTruthy body.entityType
            productId := keepTruthy body.productId
            category := orDefault body.category "uncategorized"
            tags := match body.tags with
              | some t => splitTags t
              | none => []
            alt := orDefault body.alt ""
            title := orDefault body.title f.originalname
            isPublic := false
            isDeleted := false
            deletedAt := none
            versions := []
            variants := variants
            metadata := fileMeta
            accessCount := 0
            lastAccessedAt := none }
        let image := saveImage imageData
        let application := recordUpload f.size application
        .created image application
          { imageId := image.imageId, applicationId := application.id }

/-- The document-mutating operations that can run on an existing asset
after creation, each ending in a `save` that triggers the pre-save hook. -/
inductive ImageOp
  | metadataUpdate (p : MetadataPatch)
  | replace (now : Int) (f : FileInfo)
      (variants : List (String × VariantInfo)) (meta : ImageMetadata)
  | access (now : Int)
  | delete (now : Int)
  | resave
  deriving Repr

/-- Dispatch an `ImageOp` to the corresponding embedded operation. -/
def applyImageOp (op : ImageOp) (img : Image) : Image :=
  match op with
  | .metadataUpdate p => applyMetadataPatch p img
  | .replace now f variants meta => replaceImageDoc now f variants meta img
  | .access now => recordAccess now img
  | .delete now => softDelete now img
  | .resave => saveImage img

/-- A whole post-creation history: operations applied in sequence. -/
def applyImageOps (ops : List ImageOp) (img : Image) : Image :=
  ops.foldl (fun i op => applyImageOp op i) img

/-- Whether a stored credential slot is free of plaintext (absent or a
bcrypt hash). -/
def hasNoPlaintext (o : Option SecretValue) : Bool :=
  match o with
  | some (SecretValue.plaintext _) => false
  | _ => true

/-! Concrete fixtures used by counterexamples and witnesses. -/

/-- A free-plan limits record with the schema defaults. -/
def sampleLimits : Limits :=
  { maxFileSize := 5242880, maxImagesPerMonth := 1000
    maxStorageSize := 1073741824 }

/-- A usage record last reset in January 2024 with some activity. -/
def sampleUsage : Usage :=
  { totalImages := 3, totalStorageUsed := 100, currentMonthUploads := 5
    lastResetDate := { year := 2024, month := 0 } }

/-- A registered, active tenant. -/
def sampleApp : Application :=
  { id := "app1", name := "acme", domain := "acme.com"
    apiKey := some "ak_0f"
    apiSecret := some (SecretValue.bcryptHashed "s3cr3t" 12)
    isActive := true, plan := "free", limits := sampleLimits
    usage := sampleUsage, refreshTokens := some [] }

/-- The same tenant with completely fresh usage counters. -/
def freshApp : Application :=
  { sampleApp with usage :=
      { totalImages := 0, totalStorageUsed := 0, currentMonthUploads := 0
        lastResetDate := { year := 2024, month := 0 } } }

/-- Sniffed content metadata of a small JPEG. -/
def sampleMeta : ImageMetadata :=
  { width := some 800, height := some 600, format := some "jpeg"
    hasAlpha := some false }

/-- A private, non-deleted asset owned by `sampleApp`. -/
def samplePrivateImage : Image :=
  { imageId := "img1", originalName := "a.jpg", filename := "f.jpg"
    mimetype := "image/jpeg", size := 100, path := "uploads/f.jpg"
    url := none, s3Key := none, application := "app1"
    entityId := none, entityType := none, productId := none
    category := "uncategorized", tags := [], alt := "", title := "a"
    isPublic := false, isDeleted := false, deletedAt := none
    versions := [], variants := [], metadata := sampleMeta
    accessCount := 0, lastAccessedAt := none }

/-- A valid, unexpired bearer token for `sampleApp` under secret
`"secret"`. -/
def sampleBearer : BearerToken :=
  { payload := { type := "application", id := "app1" }
    signedWith := "secret", expiresAt := 100 }

/-- A valid, unexpired signed access token whose embedded image id is NOT
`"img1"`. -/
def mismatchedToken : SignedToken :=
  { payload := { imageId := "other", applicationId := "app1" }
    signedWith := "secret", expiresAt := 100 }

/-- An uploaded-file record for a small JPEG. -/
def sampleFile : FileInfo :=
  { originalname := "a.jpg", filename := "f.jpg", mimetype := "image/jpeg"
    size := 100, path := "uploads/f.jpg" }

/-- An upload body with no classification fields. -/
def emptyBody : UploadBody :=
  { entityId := none, entityType := none, category := none, tags := none
    alt := none, title := none, productId := none }

/-! Helper lemmas about the pre-save hook and document operations. -/

theorem imagePreSave_isPublic (img : Image) :
    (imagePreSave img).isPublic = (img.isPublic || imagePublicCond img) := by
  unfold imagePreSave
  by_cases h : imagePublicCond img <;> simp [h]

theorem imagePreSave_isDeleted (img : Image) :
    (imagePreSave img).isDeleted = img.isDeleted := by
  unfold imagePreSave; split <;> rfl

theorem imagePreSave_imageId (img : Image) :
    (imagePreSave img).imageId = img.imageId := by
  unfold imagePreSave; split <;> rfl

theorem imagePreSave_deletedAt (img : Image) :
    (imagePreSave img).deletedAt = img.deletedAt := by
  unfold imagePreSave; split <;> rfl

theorem imagePreSave_variants (img : Image) :
    (imagePreSave img).variants = img.variants := by
  unfold imagePreSave; split <;> rfl

theorem softDelete_isDeleted (now : Int) (img : Image) :
    (softDelete now img).isDeleted = true := by
  unfold softDelete saveImage
  rw [imagePreSave_isDeleted]

theorem softDelete_deletedAt (now : Int) (img : Image) :
    (softDelete now img).deletedAt = some now := by
  unfold softDelete saveImage
  rw [imagePreSave_deletedAt]

theorem softDelete_imageId (now : Int) (img : Image) :
    (softDelete now img).imageId = img.imageId := by
  unfold softDelete saveImage
  rw [imagePreSave_imageId]

theorem saveImage_isPublic_true (img : Image) (h : img.isPublic = true) :
    (saveImage img).isPublic = true := by
  unfold saveImage
  rw [imagePreSave_isPublic, h, Bool.true_or]

/-- C3 counterexample setup: an asset created with category
`"electronics"`. -/
def c3Img : Image := { samplePrivateImage with category := "electronics" }

/-- C3 counterexample setup: a later metadata update moving the category
back to `"uncategorized"`. -/
def c3Patch : MetadataPatch :=
  { category := some "uncategorized", tags := none, alt := none
    title := none }

/-- C3 (counterexample): an asset saved with category `"electronics"`
becomes public, and a subsequent metadata-update save that changes the
category to `"uncategorized"` leaves `isPublic` at `true` while the
visibility condition is `false` — so after that save, `isPublic == true`
is NOT equivalent to the condition, refuting the claimed biconditional. -/
theorem c3_visibility_iff_counterexample :
    (applyMetadataPatch c3Patch (saveImage c3Img)).isPublic = true ∧
    imagePublicCond (applyMetadataPatch c3Patch (saveImage c3Img)) = false := by
  exact ⟨rfl, rfl⟩

/-- C3 (amended): every save sets `isPublic` to the disjunction of its
previous value with the visibility condition — the pre-save hook only ever
assigns `true`.  Hence at the creating save, where `isPublic` starts at the
schema default `false`, the claimed biconditional does hold; after later
saves only the forward direction (condition implies public) holds. -/
theorem c3_visibility_derivation (img : Image) :
    (saveImage img).isPublic = (img.isPublic || imagePublicCond img) ∧
    (img.isPublic = false → (saveImage img).isPublic = imagePublicCond img) := by
  constructor
  · exact imagePreSave_isPublic img
  · intro h
    rw [saveImage, imagePreSave_isPublic, h, Bool.false_or]

/-- C3 witness: the amended theorem applied to the concrete asset of the
counterexample, with its hypothesis discharged. -/
theorem c3_visibility_derivation_witness :
    (saveImage c3Img).isPublic = (c3Img.isPublic || imagePublicCond c3Img) ∧
    (saveImage c3Img).isPublic = imagePublicCond c3Img := by
  obtain ⟨h1, h2⟩ := c3_visibility_derivation c3Img
  exact ⟨h1, h2 rfl⟩

/-- C4 (counterexample): `recordUpload` performs no monthly reset.  With
`lastResetDate` in January 2024 (month index 0), invoking `recordUpload`
at any later instant — e.g. in February 2024 — increments the monthly
counter from 5 to 6 instead of resetting it to 0, and leaves
`lastResetDate` at the stored January value rather than setting it to now.
This refutes the claim that the first `recordUpload` in a new calendar
month performs the reset. -/
theorem c4_recordUpload_no_reset_counterexample :
    (recordUpload 10 sampleApp).usage.currentMonthUploads = 6 ∧
    (recordUpload 10 sampleApp).usage.currentMonthUploads ≠ 0 ∧
    (recordUpload 10 sampleApp).usage.lastResetDate = { year := 2024, month := 0 } ∧
    (recordUpload 10 sampleApp).usage.lastResetDate ≠ { year := 2024, month := 1 } := by
  refine ⟨rfl, by decide, rfl, by decide⟩

/-- C4 (amended): the monthly reset happens when `canUpload` (via
`resetMonthlyUsage`) is invoked in a calendar month or year differing from
`lastResetDate`: the monthly counter becomes 0, `lastResetDate` becomes
now, and `totalStorageUsed` and `totalImages` are untouched.  When month
and year both match, `canUpload` changes nothing at all.  `recordUpload`
never performs the reset: it always leaves `lastResetDate` unchanged. -/
theorem c4_monthly_reset (now : JsDate) (app : Application) (s : Int) :
    ((now.month ≠ app.usage.lastResetDate.month ∨
      now.year ≠ app.usage.lastResetDate.year) →
      (canUpload now app s).1.usage.currentMonthUploads = 0 ∧
      (canUpload now app s).1.usage.lastResetDate = now ∧
      (canUpload now app s).1.usage.totalStorageUsed = app.usage.totalStorageUsed ∧
      (canUpload now app s).1.usage.totalImages = app.usage.totalImages) ∧
    (now.month = app.usage.lastResetDate.month →
     now.year = app.usage.lastResetDate.year →
      (canUpload now app s).1 = app) ∧
    (recordUpload s app).usage.lastResetDate = app.usage.lastResetDate := by
  have h1 : (canUpload now app s).1 = resetMonthlyUsage now app := rfl
  refine ⟨?_, ?_, rfl⟩
  · intro h
    have hb : (now.month != app.usage.lastResetDate.month ||
        now.year != app.usage.lastResetDate.year) = true := by
      rcases h with h | h <;> simp [h]
    rw [h1]
    unfold resetMonthlyUsage
    rw [if_pos hb]
    exact ⟨rfl, rfl, rfl, rfl⟩
  · intro hm hy
    rw [h1]
    unfold resetMonthlyUsage
    rw [if_neg (by simp [hm, hy])]

/-- C4 witness: the amended theorem at a concrete tenant, both in a new
month (reset fires) and in the same month (no change). -/
theorem c4_monthly_reset_witness :
    (canUpload { year := 2024, month := 1 } sampleApp 10).1.usage.currentMonthUploads = 0 ∧
    (canUpload { year := 2024, month := 1 } sampleApp 10).1.usage.lastResetDate =
      { year := 2024, month := 1 } ∧
    (canUpload { year := 2024, month := 1 } sampleApp 10).1.usage.totalStorageUsed =
      sampleApp.usage.totalStorageUsed ∧
    (canUpload { year := 2024, month := 0 } sampleApp 10).1 = sampleApp ∧
    (recordUpload 10 sampleApp).usage.lastResetDate = sampleApp.usage.lastResetDate := by
  obtain ⟨ha, _, hc⟩ := c4_monthly_reset { year := 2024, month := 1 } sampleApp 10
  obtain ⟨h0, h1, h2, _⟩ := ha (by decide)
  obtain ⟨_, hb, _⟩ := c4_monthly_reset { year := 2024, month := 0 } sampleApp 10
  exact ⟨h0, h1, h2, hb rfl rfl, hc⟩

/-- Running total of `recordUpload` over a sequence of sizes: storage grows
by the sum and the image count by the length, from any starting state. -/
theorem recordUploads_adds (sizes : List Int) (app : Application) :
    (recordUploads sizes app).usage.totalStorageUsed =
      app.usage.totalStorageUsed + sizes.sum ∧
    (recordUploads sizes app).usage.totalImages =
      app.usage.totalImages + sizes.length := by
  induction sizes generalizing app with
  | nil => simp [recordUploads]
  | cons s rest ih =>
    obtain ⟨ha, hb⟩ := ih (recordUpload s app)
    constructor
    · show (recordUploads rest (recordUpload s app)).usage.totalStorageUsed = _
      rw [ha]
      show app.usage.totalStorageUsed + s + rest.sum = _
      rw [List.sum_cons]; ring
    · show (recordUploads rest (recordUpload s app)).usage.totalImages = _
      rw [hb]
      show app.usage.totalImages + 1 + rest.length = _
      rw [List.length_cons]; push_cast; ring

/-- C5: starting from fresh usage counters, after `recordUpload` is invoked
once per accepted upload with byte sizes `s₁..sₙ`, the tenant's
`totalStorageUsed` is exactly the sum of the sizes and `totalImages` is
exactly the number of uploads. -/
theorem c5_usage_accounting (sizes : List Int) (app : Application)
    (h1 : app.usage.totalImages = 0)
    (h2 : app.usage.totalStorageUsed = 0) :
    (recordUploads sizes app).usage.totalStorageUsed = sizes.sum ∧
    (recordUploads sizes app).usage.totalImages = sizes.length := by
  obtain ⟨ha, hb⟩ := recordUploads_adds sizes app
  rw [ha, hb, h1, h2, zero_add, zero_add]
  exact ⟨rfl, rfl⟩

/-- C5 witness: three accepted uploads of 100, 200 and 300 bytes on a fresh
tenant. -/
theorem c5_usage_accounting_witness :
    (recordUploads [100, 200, 300] freshApp).usage.totalStorageUsed =
      ([100, 200, 300] : List Int).sum ∧
    (recordUploads [100, 200, 300] freshApp).usage.totalImages =
      (([100, 200, 300] : List Int).length : Int) :=
  c5_usage_accounting [100, 200, 300] freshApp rfl rfl

/-- C7: `canUpload` reports `allowed` as exactly the conjunction of its
three reasons, and whenever the candidate size exceeds `maxFileSize` the
per-file-size reason is false and `allowed` is false regardless of the
other budgets.  (The embedding is a total function, matching the
never-throws contract: the body is pure arithmetic on the document.) -/
theorem c7_canUpload_conjunction (now : JsDate) (app : Application)
    (fileSize : Int) :
    (canUpload now app fileSize).2.allowed =
      ((canUpload now app fileSize).2.reasons.monthlyLimit &&
       (canUpload now app fileSize).2.reasons.storageLimit &&
       (canUpload now app fileSize).2.reasons.fileSizeLimit) ∧
    (app.limits.maxFileSize < fileSize →
      (canUpload now app fileSize).2.reasons.fileSizeLimit = false ∧
      (canUpload now app fileSize).2.allowed = false) := by
  have hlim : (resetMonthlyUsage now app).limits = app.limits := by
    unfold resetMonthlyUsage
    by_cases hb : (now.month != app.usage.lastResetDate.month ||
        now.year != app.usage.lastResetDate.year) = true
    · rw [if_pos hb]
    · rw [if_neg hb]
  refine ⟨rfl, ?_⟩
  intro h
  have hfs : (canUpload now app fileSize).2.reasons.fileSizeLimit = false := by
    show decide (fileSize ≤ (resetMonthlyUsage now app).limits.maxFileSize) = false
    rw [hlim]
    simp only [decide_eq_false_iff_not, not_le]
    exact h
  refine ⟨hfs, ?_⟩
  have hconj : (canUpload now app fileSize).2.allowed =
      ((canUpload now app fileSize).2.reasons.monthlyLimit &&
       (canUpload now app fileSize).2.reasons.storageLimit &&
       (canUpload now app fileSize).2.reasons.fileSizeLimit) := rfl
  rw [hconj, hfs, Bool.and_false]

/-- C7 witness: a 6,000,000-byte candidate against the 5,242,880-byte
default per-file limit is rejected on the per-file reason alone, with
ample monthly and storage budget remaining. -/
theorem c7_canUpload_conjunction_witness :
    (canUpload { year := 2024, month := 0 } sampleApp 6000000).2.reasons.fileSizeLimit = false ∧
    (canUpload { year := 2024, month := 0 } sampleApp 6000000).2.allowed = false :=
  (c7_canUpload_conjunction { year := 2024, month := 0 } sampleApp 6000000).2
    (by decide)

/-- C10: the Tenant JSON serializer strips both `apiSecret` and
`refreshTokens`; a new-document save stores the generated secret only as
its bcrypt hash, keeping the plaintext solely in the transient
`_plainSecret` (not a schema path, so never persisted or serialized); the
pre-save hook preserves the no-plaintext-stored invariant; and serializing
a saved document still exposes no secret. -/
theorem c10_secret_hygiene (app : Application) (kh sh : String) (salt : Nat)
    (isNew : Bool) (h : hasNoPlaintext app.apiSecret = true) :
    (Application.toJSON app).apiSecret = none ∧
    (Application.toJSON app).refreshTokens = none ∧
    (applicationPreSave true kh sh salt app).doc.apiSecret =
      some (SecretValue.bcryptHashed sh salt) ∧
    (applicationPreSave true kh sh salt app).plainSecret = some sh ∧
    hasNoPlaintext (applicationPreSave isNew kh sh salt app).doc.apiSecret = true ∧
    (Application.toJSON (applicationPreSave isNew kh sh salt app).doc).apiSecret = none := by
  refine ⟨rfl, rfl, rfl, rfl, ?_, rfl⟩
  cases isNew with
  | false => exact h
  | true => rfl

/-- C10 witness: the theorem at a concrete tenant and generated
credentials. -/
theorem c10_secret_hygiene_witness :
    (Application.toJSON sampleApp).apiSecret = none ∧
    (Application.toJSON sampleApp).refreshTokens = none ∧
    (applicationPreSave true "0f" "aa" 12 sampleApp).doc.apiSecret =
      some (SecretValue.bcryptHashed "aa" 12) ∧
    (applicationPreSave true "0f" "aa" 12 sampleApp).plainSecret = some "aa" ∧
    hasNoPlaintext (applicationPreSave false "0f" "aa" 12 sampleApp).doc.apiSecret = true ∧
    (Application.toJSON (applicationPreSave false "0f" "aa" 12 sampleApp).doc).apiSecret = none :=
  c10_secret_hygiene sampleApp "0f" "aa" 12 false rfl

/-- A single post-creation operation never lowers `isPublic`: every
operation ends in a save whose hook only ever assigns `true`, and none of
the field mutations touch `isPublic`. -/
theorem applyImageOp_isPublic_true (op : ImageOp) (img : Image)
    (h : img.isPublic = true) : (applyImageOp op img).isPublic = true := by
  cases op with
  | metadataUpdate p =>
    show (applyMetadataPatch p img).isPublic = true
    unfold applyMetadataPatch
    apply saveImage_isPublic_true
    cases p.category <;> cases p.tags <;> cases p.alt <;> cases p.title <;> exact h
  | replace now f variants meta =>
    show (replaceImageDoc now f variants meta img).isPublic = true
    unfold replaceImageDoc
    apply saveImage_isPublic_true
    exact h
  | access now =>
    show (recordAccess now img).isPublic = true
    unfold recordAccess
    apply saveImage_isPublic_true
    exact h
  | delete now =>
    show (softDelete now img).isPublic = true
    unfold softDelete
    apply saveImage_isPublic_true
    exact h
  | resave => exact saveImage_isPublic_true img h

/-- C9: `isPublic` is monotone — once an asset is public, no sequence of
post-creation operations (metadata update, replace, access recording,
soft delete, or any bare re-save) ever makes it private again, because the
pre-save visibility hook only ever assigns `true` and no code path assigns
`false`. -/
theorem c9_isPublic_monotone (ops : List ImageOp) (img : Image)
    (h : img.isPublic = true) :
    (applyImageOps ops img).isPublic = true := by
  induction ops generalizing img with
  | nil => exact h
  | cons op rest ih => exact ih _ (applyImageOp_isPublic_true op img h)

/-- C9 witness setup: a public product image. -/
def c9Img : Image :=
  { samplePrivateImage with imageId := "img9", isPublic := true }

/-- C9 witness: a public asset stays public through a metadata update that
removes every public trigger, an access recording, and a replace. -/
theorem c9_isPublic_monotone_witness :
    (applyImageOps
      [ImageOp.metadataUpdate
        { category := some "uncategorized", tags := none, alt := none
          title := none },
       ImageOp.access 7,
       ImageOp.replace 8 sampleFile [] sampleMeta] c9Img).isPublic = true :=
  c9_isPublic_monotone _ c9Img rfl

/-- After soft-deleting an asset in the collection, the
`isDeleted: false` lookup for its id finds nothing. -/
theorem findImage_softDeleteInDb (now : Int) (id : String) (db : List Image) :
    findImage (softDeleteInDb now id db) id = none := by
  induction db with
  | nil => rfl
  | cons i rest ih =>
    simp only [findImage, softDeleteInDb, List.map_cons] at ih ⊢
    by_cases h : (i.imageId == id) = true
    · have hval : ((softDelete now i).imageId == id &&
          !(softDelete now i).isDeleted) = false := by
        simp [softDelete_isDeleted]
      rw [if_pos h]
      simp only [List.find?_cons, hval]
      exact ih
    · have hf : (i.imageId == id) = false := by
        cases hb : (i.imageId == id)
        · rfl
        · exact absurd hb h
      have hval : (i.imageId == id && !i.isDeleted) = false := by
        rw [hf, Bool.false_and]
      rw [if_neg h]
      simp only [List.find?_cons, hval]
      exact ih

/-- After soft-deleting an asset in the collection, the catalog listing
query contains no record with its id. -/
theorem listImagesQuery_softDeleteInDb (now : Int) (id appId : String)
    (db : List Image) :
    ∀ i ∈ listImagesQuery (softDeleteInDb now id db) appId, i.imageId ≠ id := by
  intro i hi
  rw [listImagesQuery, List.mem_filter] at hi
  obtain ⟨hmem, hp⟩ := hi
  rw [softDeleteInDb, List.mem_map] at hmem
  obtain ⟨j, hj, hij⟩ := hmem
  intro hcontra
  by_cases h : (j.imageId == id) = true
  · rw [if_pos h] at hij
    have hdel : i.isDeleted = true := by
      rw [← hij]; exact softDelete_isDeleted now j
    rw [Bool.and_eq_true] at hp
    have h2 := hp.2
    rw [hdel] at h2
    simp at h2
  · rw [if_neg h] at hij
    subst hij
    exact h (beq_iff_eq.mpr hcontra)

/-- C8: once the soft-delete operation has run on an asset (setting the
deleted flag and timestamp), the catalog listing excludes it and both
direct reads answer not-found (404) for every request context — including
one carrying the owning tenant's valid bearer identity — because every
read and listing query filters on `isDeleted: false` before any access
check. -/
theorem c8_soft_deleted_hidden (db : List Image) (now : Int)
    (id appId secret : String) (tnow : Int) (ctx : ReqAuthCtx)
    (token : Option SignedToken) :
    findImage (softDeleteInDb now id db) id = none ∧
    (∀ i ∈ listImagesQuery (softDeleteInDb now id db) appId, i.imageId ≠ id) ∧
    getImageAccess secret tnow (softDeleteInDb now id db) ctx id token =
      GetImageOutcome.notFound ∧
    getImageStatus
      (getImageAccess secret tnow (softDeleteInDb now id db) ctx id token) = 404 ∧
    getImageInfoAccess secret tnow (softDeleteInDb now id db) ctx id token =
      GetInfoOutcome.notFound ∧
    getInfoStatus
      (getImageInfoAccess secret tnow (softDeleteInDb now id db) ctx id token) = 404 ∧
    ∀ img : Image, (softDelete now img).isDeleted = true ∧
      (softDelete now img).deletedAt = some now := by
  have hfind := findImage_softDeleteInDb now id db
  have hacc : getImageAccess secret tnow (softDeleteInDb now id db) ctx id token =
      GetImageOutcome.notFound := by
    unfold getImageAccess
    rw [hfind]
  have hinfo : getImageInfoAccess secret tnow (softDeleteInDb now id db) ctx id token =
      GetInfoOutcome.notFound := by
    unfold getImageInfoAccess
    rw [hfind]
  exact ⟨hfind, listImagesQuery_softDeleteInDb now id appId db, hacc,
    by rw [hacc]; rfl, hinfo, by rw [hinfo]; rfl,
    fun img => ⟨softDelete_isDeleted now img, softDelete_deletedAt now img⟩⟩

/-- C8 witness: the theorem at a concrete collection, with the request
carrying the owning tenant's identity. -/
theorem c8_soft_deleted_hidden_witness :
    findImage (softDeleteInDb 5 "img1" [samplePrivateImage]) "img1" = none ∧
    getImageAccess "secret" 0 (softDeleteInDb 5 "img1" [samplePrivateImage])
      { application := some "app1", userId := none } "img1" none =
      GetImageOutcome.notFound ∧
    getImageInfoAccess "secret" 0 (softDeleteInDb 5 "img1" [samplePrivateImage])
      { application := some "app1", userId := none } "img1" none =
      GetInfoOutcome.notFound := by
  obtain ⟨h1, _, h3, _, h5, _⟩ := c8_soft_deleted_hidden [samplePrivateImage]
    5 "img1" "app1" "secret" 0
    { application := some "app1", userId := none } none
  exact ⟨h1, h3, h5⟩

/-- C1: evaluation of the two read controllers at the failing input — a
private, non-deleted asset, no signed token, and a valid bearer identity
for the asset's owning tenant.  The metadata-only read grants access and
mints a fresh token, but the byte-serving read answers
authentication-required (401): its private-asset fallback consults
`req.userId` and `image.owner`, neither of which this route's middleware or
schema ever sets, instead of `req.application` and `image.application`. -/
theorem c1_owner_bearer_read_divergence :
    getImageRoute "secret" 0 [sampleApp] [samplePrivateImage]
      (some sampleBearer) "img1" none = GetImageOutcome.authRequired ∧
    getImageStatus (getImageRoute "secret" 0 [sampleApp] [samplePrivateImage]
      (some sampleBearer) "img1" none) = 401 ∧
    getImageInfoRoute "secret" 0 [sampleApp] [samplePrivateImage]
      (some sampleBearer) "img1" none =
      GetInfoOutcome.granted (recordAccess 0 samplePrivateImage) true ∧
    getInfoStatus (getImageInfoRoute "secret" 0 [sampleApp] [samplePrivateImage]
      (some sampleBearer) "img1" none) = 200 := by
  exact ⟨rfl, rfl, rfl, rfl⟩

/-- C2 (counterexample): for a private, non-deleted asset, the
metadata-only read with neither a bearer identity nor a token answers 403
(`Access denied`), not the authentication-required 401 the claim asserts
for both read paths. -/
theorem c2_info_noauth_403_counterexample :
    getImageInfoRoute "secret" 0 [sampleApp] [samplePrivateImage] none
      "img1" none = GetInfoOutcome.accessDenied ∧
    getInfoStatus (getImageInfoRoute "secret" 0 [sampleApp]
      [samplePrivateImage] none "img1" none) = 403 ∧
    getInfoStatus (getImageInfoRoute "secret" 0 [sampleApp]
      [samplePrivateImage] none "img1" none) ≠ 401 := by
  refine ⟨rfl, rfl, by decide⟩

/-- C2 (amended): for a private, non-deleted asset — on the byte-serving
read, a request with neither bearer identity nor token gets 401
(authentication required) and a cryptographically valid, unexpired token
naming a different asset gets 403; on the metadata-only read, the
mismatched-token case gets 403, but the no-credential case also gets the
same 403 access-denied response rather than a distinct 401. -/
theorem c2_private_read_denials (secret : String) (now : Int)
    (db : List Image) (ctx : ReqAuthCtx) (id : String) (img : Image)
    (t : SignedToken) (p : AccessTokenPayload)
    (hfind : findImage db id = some img) (hpriv : img.isPublic = false)
    (hvt : jwtVerify secret now t = some p) (hmis : p.imageId ≠ id) :
    (ctx.userId = none →
      getImageAccess secret now db ctx id none = GetImageOutcome.authRequired ∧
      getImageStatus (getImageAccess secret now db ctx id none) = 401) ∧
    (getImageAccess secret now db ctx id (some t) = GetImageOutcome.tokenForbidden ∧
     getImageStatus (getImageAccess secret now db ctx id (some t)) = 403) ∧
    (ctx.application = none →
      getImageInfoAccess secret now db ctx id none = GetInfoOutcome.accessDenied ∧
      getInfoStatus (getImageInfoAccess secret now db ctx id none) = 403) ∧
    (getImageInfoAccess secret now db ctx id (some t) = GetInfoOutcome.accessDenied ∧
     getInfoStatus (getImageInfoAccess secret now db ctx id (some t)) = 403) := by
  have hb : (p.imageId != id) = true := by simp [hmis]
  have hbe : (p.imageId == id) = false := by simp [hmis]
  refine ⟨?_, ?_, ?_, ?_⟩
  · intro hu
    have hres : getImageAccess secret now db ctx id none =
        GetImageOutcome.authRequired := by
      unfold getImageAccess
      rw [hfind]
      simp only [hpriv, Bool.false_eq_true, if_false, hu]
    exact ⟨hres, by rw [hres]; rfl⟩
  · have hres : getImageAccess secret now db ctx id (some t) =
        GetImageOutcome.tokenForbidden := by
      unfold getImageAccess
      rw [hfind]
      simp only [hpriv, Bool.false_eq_true, if_false, hvt, hb, if_true]
    exact ⟨hres, by rw [hres]; rfl⟩
  · intro ha
    have hres : getImageInfoAccess secret now db ctx id none =
        GetInfoOutcome.accessDenied := by
      unfold getImageInfoAccess
      rw [hfind]
      simp only [hpriv, Bool.false_eq_true, if_false, ha]
    exact ⟨hres, by rw [hres]; rfl⟩
  · have hres : getImageInfoAccess secret now db ctx id (some t) =
        GetInfoOutcome.accessDenied := by
      unfold getImageInfoAccess
      rw [hfind]
      simp only [hpriv, Bool.false_eq_true, if_false, hvt, hbe]
    exact ⟨hres, by rw [hres]; rfl⟩

/-- C2 witness: the amended theorem at a concrete private asset, a request
with no credentials, and a valid token embedding a different asset id. -/
theorem c2_private_read_denials_witness :
    getImageAccess "secret" 0 [samplePrivateImage]
      { application := none, userId := none } "img1" none =
      GetImageOutcome.authRequired ∧
    getImageAccess "secret" 0 [samplePrivateImage]
      { application := none, userId := none } "img1" (some mismatchedToken) =
      GetImageOutcome.tokenForbidden ∧
    getImageInfoAccess "secret" 0 [samplePrivateImage]
      { application := none, userId := none } "img1" none =
      GetInfoOutcome.accessDenied ∧
    getImageInfoAccess "secret" 0 [samplePrivateImage]
      { application := none, userId := none } "img1" (some mismatchedToken) =
      GetInfoOutcome.accessDenied := by
  obtain ⟨h1, h2, h3, h4⟩ := c2_private_read_denials "secret" 0
    [samplePrivateImage] { application := none, userId := none } "img1"
    samplePrivateImage mismatchedToken mismatchedToken.payload
    rfl rfl rfl (by decide)
  exact ⟨(h1 rfl).1, h2.1, (h3 rfl).1, h4.1⟩

/-- C6: if a single-asset upload has passed validation (a file is present)
and admission (`canUpload` allowed it), and variant generation throws, the
upload still completes: the outcome is a 201 `success: true` creation, the
catalog record carries an empty variant map and the generated id, the
tenant's usage is recorded via `recordUpload`, and an access token bound to
(imageId, applicationId) is issued. -/
theorem c6_variant_failure_nonfatal (now : JsDate) (newId : String)
    (f : FileInfo) (meta : ImageMetadata) (application : Application)
    (body : UploadBody) (err : String)
    (hadm : (canUpload now application f.size).2.allowed = true) :
    ∃ img app tok,
      uploadImage now newId (some f) meta (some application) body
        (Except.error err) = UploadOutcome.created img app tok ∧
      img.variants = [] ∧
      img.imageId = newId ∧
      app = recordUpload f.size (canUpload now application f.size).1 ∧
      tok = { imageId := img.imageId, applicationId := app.id } ∧
      uploadSuccess (uploadImage now newId (some f) meta (some application)
        body (Except.error err)) = true ∧
      uploadStatus (uploadImage now newId (some f) meta (some application)
        body (Except.error err)) = 201 := by
  have key : uploadImage now newId (some f) meta (some application) body
      (Except.error err) =
      UploadOutcome.created
        (saveImage
          { imageId := newId
            originalName := f.originalname
            filename := f.filename
            mimetype := f.mimetype
            size := f.size
            path := f.path
            url := none
            s3Key := none
            application := (canUpload now application f.size).1.id
            entityId := keepTruthy body.entityId
            entityType := keepTruthy body.entityType
            productId := keepTruthy body.productId
            category := orDefault body.category "uncategorized"
            tags := match body.tags with
              | some t => splitTags t
              | none => []
            alt := orDefault body.alt ""
            title := orDefault body.title f.originalname
            isPublic := false
            isDeleted := false
            deletedAt := none
            versions := []
            variants := []
            metadata := meta
            accessCount := 0
            lastAccessedAt := none })
        (recordUpload f.size (canUpload now application f.size).1)
        { imageId := (saveImage
            { imageId := newId
              originalName := f.originalname
              filename := f.filename
              mimetype := f.mimetype
              size := f.size
              path := f.path
              url := none
              s3Key := none
              application := (canUpload now application f.size).1.id
              entityId := keepTruthy body.entityId
              entityType := keepTruthy body.entityType
              productId := keepTruthy body.productId
              category := orDefault body.category "uncategorized"
              tags := match body.tags with
                | some t => splitTags t
                | none => []
              alt := orDefault body.alt ""
              title := orDefault body.title f.originalname
              isPublic := false
              isDeleted := false
              deletedAt := none
              versions := []
              variants := []
              metadata := meta
              accessCount := 0
              lastAccessedAt := none }).imageId
          applicationId := (recordUpload f.size
            (canUpload now application f.size).1).id } := by
    unfold uploadImage
    simp only [hadm, Bool.not_true, Bool.false_eq_true, if_false]
  refine ⟨_, _, _, key, ?_, ?_, rfl, rfl, ?_, ?_⟩
  · rw [saveImage, imagePreSave_variants]
  · rw [saveImage, imagePreSave_imageId]
  · rw [key]; rfl
  · rw [key]; rfl

/-- C6 witness: the theorem at a concrete admitted upload whose variant
generation throws. -/
theorem c6_variant_failure_nonfatal_witness :
    ∃ img app tok,
      uploadImage { year := 2024, month := 0 } "newid" (some sampleFile)
        sampleMeta (some sampleApp) emptyBody (Except.error "decode failed") =
        UploadOutcome.created img app tok ∧
      img.variants = [] ∧
      img.imageId = "newid" ∧
      app = recordUpload sampleFile.size
        (canUpload { year := 2024, month := 0 } sampleApp sampleFile.size).1 ∧
      tok = { imageId := img.imageId, applicationId := app.id } ∧
      uploadSuccess (uploadImage { year := 2024, month := 0 } "newid"
        (some sampleFile) sampleMeta (some sampleApp) emptyBody
        (Except.error "decode failed")) = true ∧
      uploadStatus (uploadImage { year := 2024, month := 0 } "newid"
        (some sampleFile) sampleMeta (some sampleApp) emptyBody
        (Except.error "decode failed")) = 201 :=
  c6_variant_failure_nonfatal { year := 2024, month := 0 } "newid"
    sampleFile sampleMeta sampleApp emptyBody "decode failed" (by decide)

end ImageService
